import Mathlib

/-!
Shallow embedding of the book-record persistence and mutation layer of the
Next-Crud-Demo repository (the server actions in `bookActions.ts` over the
`Book` interface of `types/book.ts`), together with proofs of the spec's
claims about it.

The JSON-file backing store is modelled by `Store`; JavaScript `Date` values
are modelled by `JSDate` (milliseconds since the Unix epoch, restricted to
non-negative values: the application only ever creates dates via `new Date()`
at current time or by parsing date strings it itself wrote, all of which are
on or after 1970-01-01).
-/

namespace NextCrud

/-- From `types/book.ts`: enum `BookCondition`. -/
inductive BookCondition where
  | EXCELLENT
  | GOOD
  | FAIR
  | POOR
  | DESTROYED
deriving DecidableEq

/-- A JavaScript `Date`: milliseconds since the Unix epoch.  The model is
restricted to the non-negative range (dates on or after 1970-01-01), which
covers every date the application creates. -/
structure JSDate where
  ms : Nat
deriving DecidableEq

/-- From `types/book.ts`: interface `Book`.  The optional field
`lastCheckedOutDate?: Date` becomes an `Option JSDate` (with `none` for the
absent / `undefined` case). -/
structure Book where
  id : String
  title : String
  author : String
  isbn : String
  publishedYear : Int
  genre : String
  description : String
  condition : BookCondition
  isCheckedOut : Bool
  isActive : Bool
  lastCheckedOutDate : Option JSDate
  addedDate : JSDate
deriving DecidableEq

/-- From `bookActions.ts`: interface `AddBookData` (the input for adding or
updating a book). -/
structure AddBookData where
  title : String
  author : String
  isbn : String
  publishedYear : Int
  genre : String
  description : String
  condition : BookCondition
deriving DecidableEq

/-! ## In-memory collection transforms

Each exported mutation in `bookActions.ts` reads the whole collection, mutates
it in memory, and writes it back.  The in-memory part is captured here as a
pure function on `List Book`.  `Array.prototype.find` returns a reference to
the FIRST matching element and the code then mutates that object in place;
functionally this is `mutateFirst`: rewrite the first element satisfying the
predicate, leave everything else untouched. -/

/-- Rewrite the first element satisfying `p` with `f`; all other elements are
kept as they are. -/
def mutateFirst (p : Book → Bool) (f : Book → Book) : List Book → List Book
  | [] => []
  | b :: rest => if p b then f b :: rest else b :: mutateFirst p f rest

/-- `books.find((book) => book.id === id)` — first record with the given id. -/
def findBook (id : String) (books : List Book) : Option Book :=
  books.find? (fun b => b.id == id)

/-- `books.filter((book) => book.isActive)` — the active records in
collection order (the in-memory part of `getActiveBooks`). -/
def activeBooks (books : List Book) : List Book :=
  books.filter (fun b => b.isActive)

/-- The record constructed by `addBook`: id is `(books.length + 1).toString()`,
the seven input fields are spread in, and the defaults are
`isCheckedOut: false`, `isActive: true`, `addedDate: new Date()` (the
`lastCheckedOutDate` field is not set, i.e. absent). -/
def newBook (now : JSDate) (count : Nat) (data : AddBookData) : Book :=
  { id := Nat.repr (count + 1)
    title := data.title
    author := data.author
    isbn := data.isbn
    publishedYear := data.publishedYear
    genre := data.genre
    description := data.description
    condition := data.condition
    isCheckedOut := false
    isActive := true
    lastCheckedOutDate := none
    addedDate := now }

/-- In-memory part of `addBook`: `books.push(newBook)`. -/
def addBookList (now : JSDate) (data : AddBookData) (books : List Book) :
    List Book :=
  books ++ [newBook now books.length data]

/-- The merged record built by `updateBook`:
`{ ...book, ...data, id: book.id, isCheckedOut: book.isCheckedOut,
isActive: book.isActive, addedDate: book.addedDate,
lastCheckedOutDate: book.lastCheckedOutDate }` — the seven `AddBookData`
fields come from the input, everything else from the existing record. -/
def applyUpdate (b : Book) (data : AddBookData) : Book :=
  { b with
    title := data.title
    author := data.author
    isbn := data.isbn
    publishedYear := data.publishedYear
    genre := data.genre
    description := data.description
    condition := data.condition }

/-- In-memory part of `updateBook`: `findIndex` on the id, and if found,
replace the record at that index by the merged record.  (If the id is not
found the collection is returned unchanged; the caller additionally skips the
write in that case, see `updateBook` below.) -/
def updateBookList (bookId : String) (data : AddBookData)
    (books : List Book) : List Book :=
  match books.findIdx? (fun b => b.id == bookId) with
  | some i =>
    match books[i]? with
    | some book => books.set i (applyUpdate book data)
    | none => books
  | none => books

/-- The in-place mutation of `toggleCheckoutStatus` on the found record:
`book.isCheckedOut = !book.isCheckedOut;`
`book.lastCheckedOutDate = book.isCheckedOut ? new Date() : undefined;`. -/
def toggleApply (now : JSDate) (b : Book) : Book :=
  { b with
    isCheckedOut := !b.isCheckedOut
    lastCheckedOutDate := if !b.isCheckedOut then some now else none }

/-- In-memory part of `toggleCheckoutStatus`: mutate the first record whose id
matches. -/
def toggleCheckoutList (now : JSDate) (bookId : String)
    (books : List Book) : List Book :=
  mutateFirst (fun b => b.id == bookId) (toggleApply now) books

/-- In-memory part of `markBookInactive`: `book.isActive = false` on the first
record whose id matches. -/
def markInactiveList (bookId : String) (books : List Book) : List Book :=
  mutateFirst (fun b => b.id == bookId) (fun b => { b with isActive := false })
    books

/-- In-memory part of `updateBookCondition`: `book.condition = condition` on
the first record whose id matches. -/
def updateConditionList (condition : BookCondition) (bookId : String)
    (books : List Book) : List Book :=
  mutateFirst (fun b => b.id == bookId)
    (fun b => { b with condition := condition }) books

/-! ## Dates and their serialized form

`writeBooksToFile` serializes a date with
`date.toISOString().split("T")[0]`, i.e. the `YYYY-MM-DD` date part of the
ISO string (UTC civil date of the instant).  `readBooksFromFile` parses the
stored string with `new Date(string)`, which for a `YYYY-MM-DD` string yields
midnight UTC of that civil day.  The civil-calendar conversions below are the
standard Gregorian days-from-civil / civil-from-days algorithms, restricted
to days on or after 1970-01-01 (year at least 1970). -/

def msPerDay : Nat := 86400000

/-- The (UTC) day number of a date: days since 1970-01-01. -/
def JSDate.day (d : JSDate) : Nat := d.ms / msPerDay

/-- Civil (year, month, day) of a day number (days since 1970-01-01). -/
def civilFromDays (z : Nat) : Nat × Nat × Nat :=
  let z' := z + 719468
  let era := z' / 146097
  let doe := z' % 146097
  let yoe := (doe - doe / 1460 + doe / 36524 - doe / 146096) / 365
  let y := yoe + era * 400
  let doy := doe - (365 * yoe + yoe / 4 - yoe / 100)
  let mp := (5 * doy + 2) / 153
  let d := doy - (153 * mp + 2) / 5 + 1
  let m := if mp < 10 then mp + 3 else mp - 9
  (if m ≤ 2 then y + 1 else y, m, d)

/-- Day number (days since 1970-01-01) of a civil (year, month, day); meant
for years at least 1970. -/
def daysFromCivil (y m d : Nat) : Nat :=
  let y' := if m ≤ 2 then y - 1 else y
  let era := y' / 400
  let yoe := y' % 400
  let mp := if 2 < m then m - 3 else m + 9
  let doy := (153 * mp + 2) / 5 + d - 1
  let doe := yoe * 365 + yoe / 4 - yoe / 100 + doy
  era * 146097 + doe - 719468

def daysInMonth (y m : Nat) : Nat :=
  if m = 2 then (if y % 4 = 0 ∧ (y % 100 ≠ 0 ∨ y % 400 = 0) then 29 else 28)
  else if m = 4 ∨ m = 6 ∨ m = 9 ∨ m = 11 then 30
  else 31

/-- The four decimal digit characters of a year (years up to 9999, exactly
the range in which `toISOString` uses the plain `YYYY` form). -/
def pad4Digits (n : Nat) : List Char :=
  [Nat.digitChar (n / 1000 % 10), Nat.digitChar (n / 100 % 10),
   Nat.digitChar (n / 10 % 10), Nat.digitChar (n % 10)]

/-- The two decimal digit characters of a month or day-of-month. -/
def pad2Digits (n : Nat) : List Char :=
  [Nat.digitChar (n / 10 % 10), Nat.digitChar (n % 10)]

/-- Model of `date.toISOString().split("T")[0]`: the `YYYY-MM-DD` string for
the UTC civil date of the instant. -/
def toISODateOnly (dt : JSDate) : String :=
  let c := civilFromDays dt.day
  ⟨pad4Digits c.1 ++ '-' :: pad2Digits c.2.1 ++ '-' :: pad2Digits c.2.2⟩

/-- The numeric value of a decimal digit character. -/
def digitVal (c : Char) : Nat := c.toNat - 48

/-- Model of `new Date(s)` on a stored date string: a strict `YYYY-MM-DD`
parse (four digits, dash, two digits, dash, two digits, in-range month and
day-of-month) yielding midnight UTC of that civil day.  Strings outside this
shape, or with out-of-range components, give JavaScript an `Invalid Date`;
the model returns `none` for them (and also for years before 1970, which are
outside the modelled non-negative date range and never written by the
application). -/
def parseISODate (s : String) : Option JSDate :=
  match s.data with
  | [y1, y2, y3, y4, dash1, m1, m2, dash2, d1, d2] =>
    if 48 ≤ y1.toNat ∧ y1.toNat ≤ 57 ∧ 48 ≤ y2.toNat ∧ y2.toNat ≤ 57 ∧
        48 ≤ y3.toNat ∧ y3.toNat ≤ 57 ∧ 48 ≤ y4.toNat ∧ y4.toNat ≤ 57 ∧
        dash1 = '-' ∧ 48 ≤ m1.toNat ∧ m1.toNat ≤ 57 ∧
        48 ≤ m2.toNat ∧ m2.toNat ≤ 57 ∧ dash2 = '-' ∧
        48 ≤ d1.toNat ∧ d1.toNat ≤ 57 ∧ 48 ≤ d2.toNat ∧ d2.toNat ≤ 57 then
      let y := digitVal y1 * 1000 + digitVal y2 * 100 +
        digitVal y3 * 10 + digitVal y4
      let m := digitVal m1 * 10 + digitVal m2
      let d := digitVal d1 * 10 + digitVal d2
      if 1970 ≤ y ∧ 1 ≤ m ∧ m ≤ 12 ∧ 1 ≤ d ∧ d ≤ daysInMonth y m then
        some ⟨daysFromCivil y m d * msPerDay⟩
      else none
    else none
  | _ => none

/-- `new Date(s)` as used by `readBooksFromFile` for the required
`addedDate` field.  Strings that do not parse (JavaScript `Invalid Date`)
are outside the well-formed store domain the theorems quantify over; the
model maps them to the epoch. -/
def parseDate (s : String) : JSDate :=
  (parseISODate s).getD ⟨0⟩

/-! ## The backing store and the read/write helpers -/

/-- A `Book` as it sits in the JSON file: date fields are strings, and an
absent `lastCheckedOutDate` key is `none` (JSON.stringify omits object
properties whose value is `undefined`, so `none` models the key being
missing from the serialized object, not a `null` value). -/
structure SBook where
  id : String
  title : String
  author : String
  isbn : String
  publishedYear : Int
  genre : String
  description : String
  condition : BookCondition
  isCheckedOut : Bool
  isActive : Bool
  lastCheckedOutDate : Option String
  addedDate : String
deriving DecidableEq

/-- The backing JSON file.  `readOk = none` models any failing read or parse
(missing file, unreadable file, malformed JSON); `writeOk = false` models a
failing write. -/
structure Store where
  readOk : Option (List SBook)
  writeOk : Bool
deriving DecidableEq

/-- Deserialization of one record in `readBooksFromFile`:
`{ ...book, addedDate: new Date(book.addedDate),
lastCheckedOutDate: book.lastCheckedOutDate ? new Date(...) : undefined }`.
The conditional is JavaScript truthiness: a missing key and the empty string
both yield `undefined`. -/
def readBook (sb : SBook) : Book :=
  { id := sb.id
    title := sb.title
    author := sb.author
    isbn := sb.isbn
    publishedYear := sb.publishedYear
    genre := sb.genre
    description := sb.description
    condition := sb.condition
    isCheckedOut := sb.isCheckedOut
    isActive := sb.isActive
    lastCheckedOutDate :=
      match sb.lastCheckedOutDate with
      | some s => if s = "" then none else some (parseDate s)
      | none => none
    addedDate := parseDate sb.addedDate }

/-- Serialization of one record in `writeBooksToFile`:
`{ ...book, addedDate: book.addedDate.toISOString().split("T")[0],
lastCheckedOutDate: book.lastCheckedOutDate ? ...same... : undefined }`. -/
def writeBook (b : Book) : SBook :=
  { id := b.id
    title := b.title
    author := b.author
    isbn := b.isbn
    publishedYear := b.publishedYear
    genre := b.genre
    description := b.description
    condition := b.condition
    isCheckedOut := b.isCheckedOut
    isActive := b.isActive
    lastCheckedOutDate := b.lastCheckedOutDate.map toISODateOnly
    addedDate := toISODateOnly b.addedDate }

/-- `readBooksFromFile`: read and parse the file, deserialize every record;
on ANY read or parse failure, catch the error and return the empty list. -/
def readBooksFromFile (st : Store) : List Book :=
  match st.readOk with
  | none => []
  | some sbooks => sbooks.map readBook

/-- `writeBooksToFile`: serialize every record and write the file; if the
write fails, the caught error is re-thrown as `Error("Failed to save books")`
and IS propagated to the caller. -/
def writeBooksToFile (st : Store) (books : List Book) :
    Except String Store :=
  if st.writeOk then
    Except.ok { st with readOk := some (books.map writeBook) }
  else Except.error "Failed to save books"

/-! ## The exported server actions

Each action is `readBooksFromFile` → in-memory transform → (conditional)
`writeBooksToFile`.  `revalidatePath` only invalidates Next.js caches and has
no effect on the store, so it does not appear in the model. -/

/-- `getBooks()`. -/
def getBooks (st : Store) : List Book := readBooksFromFile st

/-- `getBook(id)`. -/
def getBook (id : String) (st : Store) : Option Book :=
  findBook id (readBooksFromFile st)

/-- `getActiveBooks()`. -/
def getActiveBooks (st : Store) : List Book :=
  activeBooks (readBooksFromFile st)

/-- `addBook(data)`: always writes. -/
def addBook (st : Store) (now : JSDate) (data : AddBookData) :
    Except String Store :=
  let books := readBooksFromFile st
  writeBooksToFile st (addBookList now data books)

/-- `updateBook(bookId, data)`: writes only when `findIndex` found the id
(`bookIndex !== -1`); otherwise resolves without touching the file. -/
def updateBook (st : Store) (bookId : String) (data : AddBookData) :
    Except String Store :=
  let books := readBooksFromFile st
  if (books.findIdx? (fun b => b.id == bookId)).isSome then
    writeBooksToFile st (updateBookList bookId data books)
  else Except.ok st

/-- `toggleCheckoutStatus(bookId)`: writes only when `find` found the id. -/
def toggleCheckoutStatus (st : Store) (now : JSDate) (bookId : String) :
    Except String Store :=
  let books := readBooksFromFile st
  if (books.find? (fun b => b.id == bookId)).isSome then
    writeBooksToFile st (toggleCheckoutList now bookId books)
  else Except.ok st

/-- `markBookInactive(bookId)`: writes only when `find` found the id. -/
def markBookInactive (st : Store) (bookId : String) :
    Except String Store :=
  let books := readBooksFromFile st
  if (books.find? (fun b => b.id == bookId)).isSome then
    writeBooksToFile st (markInactiveList bookId books)
  else Except.ok st

/-- `updateBookCondition(bookId, condition)`: writes only when `find` found
the id. -/
def updateBookCondition (st : Store) (bookId : String)
    (condition : BookCondition) : Except String Store :=
  let books := readBooksFromFile st
  if (books.find? (fun b => b.id == bookId)).isSome then
    writeBooksToFile st (updateConditionList condition bookId books)
  else Except.ok st

/-! ## Basic lemmas about the collection transforms -/

theorem mutateFirst_length (p : Book → Bool) (f : Book → Book) :
    ∀ l : List Book, (mutateFirst p f l).length = l.length := by
  intro l
  induction l with
  | nil => rfl
  | cons b rest ih =>
    simp only [mutateFirst]
    split <;> simp [ih]

theorem mutateFirst_of_find?_eq_none (p : Book → Bool) (f : Book → Book)
    (l : List Book) (h : l.find? p = none) : mutateFirst p f l = l := by
  induction l with
  | nil => rfl
  | cons b rest ih =>
    rw [List.find?_cons] at h
    simp only [mutateFirst]
    cases hp : p b with
    | true => rw [hp] at h; exact absurd h (by simp)
    | false => rw [hp] at h; simp [ih h]

theorem find?_mutateFirst_of_find?_eq_some (p : Book → Bool)
    (f : Book → Book) (l : List Book) (b : Book) (h : l.find? p = some b)
    (hf : p (f b) = true) :
    (mutateFirst p f l).find? p = some (f b) := by
  induction l with
  | nil => simp at h
  | cons a rest ih =>
    simp only [mutateFirst]
    cases hp : p a with
    | true =>
      rw [List.find?_cons_of_pos _ hp, Option.some_inj] at h
      subst h
      simp [List.find?_cons_of_pos _ hf]
    | false =>
      rw [List.find?_cons_of_neg _ (by simp [hp])] at h
      rw [if_neg (by simp [hp]), List.find?_cons_of_neg _ (by simp [hp])]
      exact ih h

theorem getElem?_mutateFirst_of_neg (p : Book → Bool) (f : Book → Book)
    (l : List Book) (j : Nat) (b : Book) (hj : l[j]? = some b)
    (hp : p b = false) : (mutateFirst p f l)[j]? = some b := by
  induction l generalizing j with
  | nil => simp at hj
  | cons a rest ih =>
    simp only [mutateFirst]
    cases j with
    | zero =>
      simp only [List.getElem?_cons_zero, Option.some_inj] at hj
      subst hj
      simp [hp]
    | succ k =>
      simp only [List.getElem?_cons_succ] at hj
      split
      · simp [List.getElem?_cons_succ, hj]
      · simp [List.getElem?_cons_succ, ih k hj]

theorem getElem?_mutateFirst_id (p : Book → Bool) (f : Book → Book)
    (hid : ∀ x, (f x).id = x.id) (l : List Book) (j : Nat) :
    ((mutateFirst p f l)[j]?).map Book.id = (l[j]?).map Book.id := by
  induction l generalizing j with
  | nil => rfl
  | cons a rest ih =>
    simp only [mutateFirst]
    cases j with
    | zero => split <;> simp [hid]
    | succ k => split <;> simp [List.getElem?_cons_succ, ih k]

theorem mutateFirst_comm (p : Book → Bool) (f g : Book → Book)
    (hf : ∀ x, p (f x) = p x) (hg : ∀ x, p (g x) = p x)
    (hcomm : ∀ x, f (g x) = g (f x)) :
    ∀ l : List Book,
      mutateFirst p f (mutateFirst p g l) =
        mutateFirst p g (mutateFirst p f l) := by
  intro l
  induction l with
  | nil => rfl
  | cons b rest ih =>
    simp only [mutateFirst]
    cases hp : p b with
    | true => simp [mutateFirst, hf, hg, hp, hcomm]
    | false => simp [mutateFirst, hp, ih]

theorem updateBookList_cons_of_pos (bookId : String) (data : AddBookData)
    (b : Book) (rest : List Book) (hp : (b.id == bookId) = true) :
    updateBookList bookId data (b :: rest) = applyUpdate b data :: rest := by
  simp only [updateBookList.eq_def]
  rw [List.findIdx?_cons, if_pos hp]
  simp

theorem updateBookList_cons_of_neg (bookId : String) (data : AddBookData)
    (b : Book) (rest : List Book) (hp : (b.id == bookId) = false) :
    updateBookList bookId data (b :: rest) =
      b :: updateBookList bookId data rest := by
  simp only [updateBookList.eq_def]
  rw [List.findIdx?_cons, if_neg (by simp [hp]), List.findIdx?_succ]
  cases hidx : rest.findIdx? (fun b => b.id == bookId) with
  | none => rfl
  | some i =>
    cases hget : rest[i]? with
    | none => simp [List.getElem?_cons_succ, hget]
    | some bk => simp [List.getElem?_cons_succ, List.set_cons_succ, hget]

theorem updateBookList_eq_mutateFirst (bookId : String)
    (data : AddBookData) (books : List Book) :
    updateBookList bookId data books =
      mutateFirst (fun b => b.id == bookId) (fun b => applyUpdate b data)
        books := by
  induction books with
  | nil => rfl
  | cons b rest ih =>
    cases hp : b.id == bookId with
    | true =>
      rw [updateBookList_cons_of_pos bookId data b rest hp]
      simp [mutateFirst, hp]
    | false =>
      rw [updateBookList_cons_of_neg bookId data b rest hp, ih]
      simp [mutateFirst, hp]

theorem find?_eq_none_of_findBook (i : String) (books : List Book)
    (h : findBook i books = none) :
    books.findIdx? (fun b => b.id == i) = none := by
  rw [List.findIdx?_eq_none_iff]
  intro x hx
  have := List.find?_eq_none.mp h x hx
  simpa using this

/-! ## Sample values used by the concrete witnesses -/

def sampleData : AddBookData :=
  { title := "Dune"
    author := "Herbert"
    isbn := "978-0"
    publishedYear := 1965
    genre := "SciFi"
    description := "sand"
    condition := BookCondition.GOOD }

def sampleData2 : AddBookData :=
  { title := "Emma"
    author := "Austen"
    isbn := "978-1"
    publishedYear := 1815
    genre := "Novel"
    description := "ok"
    condition := BookCondition.FAIR }

/-- A book as `addBook` would create it as the first record. -/
def sampleBook : Book :=
  { id := "1"
    title := "Dune"
    author := "Herbert"
    isbn := "978-0"
    publishedYear := 1965
    genre := "SciFi"
    description := "sand"
    condition := BookCondition.GOOD
    isCheckedOut := false
    isActive := true
    lastCheckedOutDate := none
    addedDate := ⟨86400000⟩ }

/-- A book that is currently checked out. -/
def sampleBookOut : Book :=
  { sampleBook with
    isCheckedOut := true
    lastCheckedOutDate := some ⟨86400000⟩ }

/-- An inactive (soft-deleted) book. -/
def sampleBookInactive : Book :=
  { sampleBook with isActive := false }

/-! ## The claims -/

/-- C3: `update(i, data)` on an id not in the collection leaves the
collection unchanged (and, at the store level, does not even write, so the
store is returned as-is and `loadAll` before and after agree); on an id that
is present it replaces exactly the seven mutable input fields of that record
and preserves `id`, `isCheckedOut`, `isActive`, `addedDate` and
`lastCheckedOutDate` verbatim. -/
theorem C3_updateBook (i : String) (data : AddBookData) :
    (∀ books : List Book,
      findBook i books = none → updateBookList i data books = books) ∧
    (∀ st : Store,
      getBook i st = none → updateBook st i data = Except.ok st) ∧
    (∀ (books : List Book) (b : Book), findBook i books = some b →
      findBook i (updateBookList i data books) = some
        { id := b.id
          title := data.title
          author := data.author
          isbn := data.isbn
          publishedYear := data.publishedYear
          genre := data.genre
          description := data.description
          condition := data.condition
          isCheckedOut := b.isCheckedOut
          isActive := b.isActive
          lastCheckedOutDate := b.lastCheckedOutDate
          addedDate := b.addedDate }) := by
  refine ⟨fun books h => ?_, fun st h => ?_, fun books b h => ?_⟩
  · rw [updateBookList_eq_mutateFirst]
    exact mutateFirst_of_find?_eq_none _ _ _ h
  · rw [updateBook]
    rw [if_neg]
    rw [find?_eq_none_of_findBook i _ h]
    simp
  · rw [updateBookList_eq_mutateFirst]
    have h' : books.find? (fun x => x.id == i) = some b := h
    have hp := List.find?_some (p := fun x : Book => x.id == i) h'
    have := find?_mutateFirst_of_find?_eq_some (fun b => b.id == i)
      (fun b => applyUpdate b data) books b h' (by simpa using hp)
    rw [findBook, this]
    rfl

/-- Witness for C3 at concrete inputs: id "2" is absent from `[sampleBook]`
(no-op case) and id "1" is present (update case). -/
theorem C3_witness :
    (findBook "2" [sampleBook] = none ∧
      updateBookList "2" sampleData2 [sampleBook] = [sampleBook]) ∧
    (getBook "2" ⟨some [], true⟩ = none ∧
      updateBook ⟨some [], true⟩ "2" sampleData2 =
        Except.ok ⟨some [], true⟩) ∧
    (findBook "1" [sampleBook] = some sampleBook ∧
      findBook "1" (updateBookList "1" sampleData2 [sampleBook]) = some
        { id := sampleBook.id
          title := sampleData2.title
          author := sampleData2.author
          isbn := sampleData2.isbn
          publishedYear := sampleData2.publishedYear
          genre := sampleData2.genre
          description := sampleData2.description
          condition := sampleData2.condition
          isCheckedOut := sampleBook.isCheckedOut
          isActive := sampleBook.isActive
          lastCheckedOutDate := sampleBook.lastCheckedOutDate
          addedDate := sampleBook.addedDate }) :=
  ⟨⟨by decide, (C3_updateBook "2" sampleData2).1 [sampleBook] (by decide)⟩,
   ⟨by decide, (C3_updateBook "2" sampleData2).2.1 ⟨some [], true⟩ (by decide)⟩,
   ⟨by decide,
    (C3_updateBook "1" sampleData2).2.2 [sampleBook] sampleBook (by decide)⟩⟩

/-- C4: after `setInactive(i)` on a record present with id i, that record has
`isActive = false` and every other field untouched (in particular
`isCheckedOut` is not reset), the resulting record is not in `getActive`'s
result, and `getById(i)` still returns it. -/
theorem C4_markBookInactive (i : String) (books : List Book) (b : Book)
    (h : findBook i books = some b) :
    findBook i (markInactiveList i books) = some
      { id := b.id
        title := b.title
        author := b.author
        isbn := b.isbn
        publishedYear := b.publishedYear
        genre := b.genre
        description := b.description
        condition := b.condition
        isCheckedOut := b.isCheckedOut
        isActive := false
        lastCheckedOutDate := b.lastCheckedOutDate
        addedDate := b.addedDate } ∧
    { b with isActive := false } ∉ activeBooks (markInactiveList i books) := by
  have h' : books.find? (fun x => x.id == i) = some b := h
  have hp := List.find?_some (p := fun x : Book => x.id == i) h'
  constructor
  · have := find?_mutateFirst_of_find?_eq_some (fun x => x.id == i)
      (fun x => { x with isActive := false }) books b h' (by simpa using hp)
    rw [findBook, markInactiveList, this]
  · intro hmem
    rw [activeBooks, List.mem_filter] at hmem
    simp at hmem

/-- Witness for C4: deactivating the only record of a one-record collection. -/
theorem C4_witness :
    findBook "1" (markInactiveList "1" [sampleBookOut]) = some
      { id := sampleBookOut.id
        title := sampleBookOut.title
        author := sampleBookOut.author
        isbn := sampleBookOut.isbn
        publishedYear := sampleBookOut.publishedYear
        genre := sampleBookOut.genre
        description := sampleBookOut.description
        condition := sampleBookOut.condition
        isCheckedOut := sampleBookOut.isCheckedOut
        isActive := false
        lastCheckedOutDate := sampleBookOut.lastCheckedOutDate
        addedDate := sampleBookOut.addedDate } ∧
    { sampleBookOut with isActive := false } ∉
      activeBooks (markInactiveList "1" [sampleBookOut]) :=
  C4_markBookInactive "1" [sampleBookOut] sampleBookOut (by decide)

/-- C10: every id-keyed mutation preserves the record count and the relative
order of the records (position by position the ids are unchanged), and leaves
every record whose id differs from the given id untouched; `add` is exactly
"append the new record at the end", preserving all existing records and
their order. -/
theorem C10_frame (books : List Book) (i : String) (data : AddBookData)
    (now : JSDate) (c : BookCondition) :
    ((updateBookList i data books).length = books.length ∧
      (toggleCheckoutList now i books).length = books.length ∧
      (markInactiveList i books).length = books.length ∧
      (updateConditionList c i books).length = books.length) ∧
    (∀ j : Nat,
      ((updateBookList i data books)[j]?).map Book.id =
        (books[j]?).map Book.id ∧
      ((toggleCheckoutList now i books)[j]?).map Book.id =
        (books[j]?).map Book.id ∧
      ((markInactiveList i books)[j]?).map Book.id =
        (books[j]?).map Book.id ∧
      ((updateConditionList c i books)[j]?).map Book.id =
        (books[j]?).map Book.id) ∧
    (∀ (j : Nat) (b : Book), books[j]? = some b → b.id ≠ i →
      (updateBookList i data books)[j]? = some b ∧
      (toggleCheckoutList now i books)[j]? = some b ∧
      (markInactiveList i books)[j]? = some b ∧
      (updateConditionList c i books)[j]? = some b) ∧
    addBookList now data books = books ++ [newBook now books.length data] := by
  refine ⟨⟨?_, ?_, ?_, ?_⟩, fun j => ⟨?_, ?_, ?_, ?_⟩,
    fun j b hj hne => ?_, rfl⟩
  · rw [updateBookList_eq_mutateFirst]; exact mutateFirst_length _ _ _
  · exact mutateFirst_length _ _ _
  · exact mutateFirst_length _ _ _
  · exact mutateFirst_length _ _ _
  · rw [updateBookList_eq_mutateFirst]
    exact getElem?_mutateFirst_id (fun b => b.id == i)
      (fun b => applyUpdate b data) (fun x => rfl) books j
  · exact getElem?_mutateFirst_id (fun b => b.id == i)
      (toggleApply now) (fun x => rfl) books j
  · exact getElem?_mutateFirst_id (fun b => b.id == i)
      (fun b => { b with isActive := false }) (fun x => rfl) books j
  · exact getElem?_mutateFirst_id (fun b => b.id == i)
      (fun b => { b with condition := c }) (fun x => rfl) books j
  · have hp : (b.id == i) = false := by simpa using hne
    refine ⟨?_, ?_, ?_, ?_⟩
    · rw [updateBookList_eq_mutateFirst]
      exact getElem?_mutateFirst_of_neg _ _ _ _ _ hj hp
    · exact getElem?_mutateFirst_of_neg _ _ _ _ _ hj hp
    · exact getElem?_mutateFirst_of_neg _ _ _ _ _ hj hp
    · exact getElem?_mutateFirst_of_neg _ _ _ _ _ hj hp

/-- Witness for C10: mutations keyed on the absent id "2" leave the single
record with id "1" in place, and an add appends after it. -/
theorem C10_witness :
    [sampleBook][0]? = some sampleBook ∧ sampleBook.id ≠ "2" ∧
    (updateBookList "2" sampleData2 [sampleBook])[0]? = some sampleBook ∧
    (toggleCheckoutList ⟨0⟩ "2" [sampleBook])[0]? = some sampleBook ∧
    (markInactiveList "2" [sampleBook])[0]? = some sampleBook ∧
    (updateConditionList BookCondition.POOR "2" [sampleBook])[0]? =
      some sampleBook ∧
    addBookList ⟨0⟩ sampleData2 [sampleBook] =
      [sampleBook] ++ [newBook ⟨0⟩ 1 sampleData2] := by
  have h := C10_frame [sampleBook] "2" sampleData2 ⟨0⟩ BookCondition.POOR
  have hframe := h.2.2.1 0 sampleBook (by decide) (by decide)
  exact ⟨by decide, by decide, hframe.1, hframe.2.1, hframe.2.2.1,
    hframe.2.2.2, h.2.2.2⟩

/-- Setting `isActive := true` on the first record with the given id: a
spec-side helper used to state that the id-keyed mutations never examine
`isActive` (mutating commutes with activating the record). -/
def activateFirst (i : String) (books : List Book) : List Book :=
  mutateFirst (fun b => b.id == i) (fun b => { b with isActive := true }) books

/-- C9: `update`, `toggleCheckout` and `updateCondition` do not examine
`isActive`: each of them commutes with flipping the target record to active,
and on a record found with `isActive = false` each produces exactly the same
mutation of the record as it does on any record (edit the seven input
fields / flip the checkout status / overwrite the condition). -/
theorem C9_ignores_isActive (books : List Book) (i : String)
    (data : AddBookData) (now : JSDate) (c : BookCondition) :
    (updateBookList i data (activateFirst i books) =
        activateFirst i (updateBookList i data books) ∧
      toggleCheckoutList now i (activateFirst i books) =
        activateFirst i (toggleCheckoutList now i books) ∧
      updateConditionList c i (activateFirst i books) =
        activateFirst i (updateConditionList c i books)) ∧
    (∀ b, findBook i books = some b → b.isActive = false →
      findBook i (updateBookList i data books) = some (applyUpdate b data) ∧
      findBook i (toggleCheckoutList now i books) =
        some (toggleApply now b) ∧
      findBook i (updateConditionList c i books) =
        some { b with condition := c }) := by
  constructor
  · refine ⟨?_, ?_, ?_⟩
    · rw [updateBookList_eq_mutateFirst, updateBookList_eq_mutateFirst]
      exact mutateFirst_comm (fun b => b.id == i)
        (fun b => applyUpdate b data) (fun b => { b with isActive := true })
        (fun x => rfl) (fun x => rfl) (fun x => rfl) books
    · exact mutateFirst_comm (fun b => b.id == i) (toggleApply now)
        (fun b => { b with isActive := true })
        (fun x => rfl) (fun x => rfl) (fun x => rfl) books
    · exact mutateFirst_comm (fun b => b.id == i)
        (fun b => { b with condition := c })
        (fun b => { b with isActive := true })
        (fun x => rfl) (fun x => rfl) (fun x => rfl) books
  · intro b h _
    have h' : books.find? (fun x => x.id == i) = some b := h
    have hp := List.find?_some (p := fun x : Book => x.id == i) h'
    refine ⟨?_, ?_, ?_⟩
    · rw [updateBookList_eq_mutateFirst]
      exact find?_mutateFirst_of_find?_eq_some (fun x => x.id == i)
        (fun x => applyUpdate x data) books b h' (by simpa using hp)
    · exact find?_mutateFirst_of_find?_eq_some (fun x => x.id == i)
        (toggleApply now) books b h' (by simpa using hp)
    · exact find?_mutateFirst_of_find?_eq_some (fun x => x.id == i)
        (fun x => { x with condition := c }) books b h' (by simpa using hp)

/-- Witness for C9: the record with id "1" is inactive and is still updated,
toggled and condition-changed exactly as specified. -/
theorem C9_witness :
    findBook "1" [sampleBookInactive] = some sampleBookInactive ∧
    sampleBookInactive.isActive = false ∧
    (findBook "1" (updateBookList "1" sampleData2 [sampleBookInactive]) =
        some (applyUpdate sampleBookInactive sampleData2) ∧
      findBook "1" (toggleCheckoutList ⟨7⟩ "1" [sampleBookInactive]) =
        some (toggleApply ⟨7⟩ sampleBookInactive) ∧
      findBook "1"
          (updateConditionList BookCondition.POOR "1" [sampleBookInactive]) =
        some { sampleBookInactive with condition := BookCondition.POOR }) :=
  ⟨by decide, by decide,
    (C9_ignores_isActive [sampleBookInactive] "1" sampleData2 ⟨7⟩
      BookCondition.POOR).2 sampleBookInactive (by decide) (by decide)⟩

/-- C5: error handling is asymmetric.  A failing read or parse makes
`loadAll` return the empty collection with no error reaching the caller; a
failing write makes `saveAll` raise the "Failed to save books" error, which
IS propagated; and every id-keyed mutation on an id that is not in the
collection resolves successfully (returning the store untouched) without
signaling not-found. -/
theorem C5_error_asymmetry (st : Store) (books : List Book) (i : String)
    (data : AddBookData) (now : JSDate) (c : BookCondition) :
    (st.readOk = none → readBooksFromFile st = []) ∧
    (st.writeOk = false →
      writeBooksToFile st books = Except.error "Failed to save books") ∧
    (findBook i (readBooksFromFile st) = none →
      updateBook st i data = Except.ok st ∧
      toggleCheckoutStatus st now i = Except.ok st ∧
      markBookInactive st i = Except.ok st ∧
      updateBookCondition st i c = Except.ok st) := by
  refine ⟨fun h => ?_, fun h => ?_, fun h => ?_⟩
  · rw [readBooksFromFile, h]
  · rw [writeBooksToFile, if_neg (by simp [h])]
  · have hidx := find?_eq_none_of_findBook i _ h
    have hfind : (readBooksFromFile st).find? (fun b => b.id == i) = none := h
    refine ⟨?_, ?_, ?_, ?_⟩
    · rw [updateBook, if_neg (by simp [hidx])]
    · rw [toggleCheckoutStatus, if_neg (by simp [hfind])]
    · rw [markBookInactive, if_neg (by simp [hfind])]
    · rw [updateBookCondition, if_neg (by simp [hfind])]

/-- Witness for C5: a store whose read fails, a store whose write fails, and
a store holding one record with id "1" on which mutations keyed on the
absent id "2" are silent no-ops. -/
theorem C5_witness :
    readBooksFromFile ⟨none, true⟩ = [] ∧
    writeBooksToFile ⟨some [], false⟩ [sampleBook] =
      Except.error "Failed to save books" ∧
    (updateBook ⟨none, false⟩ "2" sampleData2 = Except.ok ⟨none, false⟩ ∧
      toggleCheckoutStatus ⟨none, false⟩ ⟨3⟩ "2" = Except.ok ⟨none, false⟩ ∧
      markBookInactive ⟨none, false⟩ "2" = Except.ok ⟨none, false⟩ ∧
      updateBookCondition ⟨none, false⟩ "2" BookCondition.FAIR =
        Except.ok ⟨none, false⟩) :=
  ⟨(C5_error_asymmetry ⟨none, true⟩ [] "2" sampleData2 ⟨3⟩
      BookCondition.FAIR).1 rfl,
   (C5_error_asymmetry ⟨some [], false⟩ [sampleBook] "2" sampleData2 ⟨3⟩
      BookCondition.FAIR).2.1 rfl,
   (C5_error_asymmetry ⟨none, false⟩ [] "2" sampleData2 ⟨3⟩
      BookCondition.FAIR).2.2 (by decide)⟩

/-- `n` successive `toggleCheckout(i)` calls, the k-th one happening at
instant `nows_k` (each call evaluates `new Date()` afresh). -/
def togglesN (nows : List JSDate) (i : String) (books : List Book) :
    List Book :=
  nows.foldl (fun bs nw => toggleCheckoutList nw i bs) books

theorem findBook_toggleCheckoutList (i : String) (books : List Book)
    (b : Book) (now : JSDate) (h : findBook i books = some b) :
    findBook i (toggleCheckoutList now i books) =
      some (toggleApply now b) := by
  have h' : books.find? (fun x => x.id == i) = some b := h
  have hp := List.find?_some (p := fun x : Book => x.id == i) h'
  exact find?_mutateFirst_of_find?_eq_some (fun x => x.id == i)
    (toggleApply now) books b h' (by simpa using hp)

theorem togglesN_found (i : String) :
    ∀ (nows : List JSDate) (books : List Book) (b : Book),
      findBook i books = some b →
      ∃ r, findBook i (togglesN nows i books) = some r ∧
        r.isCheckedOut = (b.isCheckedOut != (nows.length % 2 == 1)) ∧
        (nows = [] → r = b) ∧
        (nows ≠ [] → r.lastCheckedOutDate.isSome = r.isCheckedOut) := by
  intro nows
  induction nows with
  | nil =>
    intro books b h
    exact ⟨b, h, by simp, fun _ => rfl, by simp⟩
  | cons nw rest ih =>
    intro books b h
    have hstep := findBook_toggleCheckoutList i books b nw h
    obtain ⟨r, hr, hco, hnil, hpos⟩ :=
      ih (toggleCheckoutList nw i books) (toggleApply nw b) hstep
    refine ⟨r, by simpa [togglesN, List.foldl_cons] using hr, ?_, by simp,
      fun _ => ?_⟩
    · rw [hco]
      have hpar : (rest.length + 1) % 2 = 1 - rest.length % 2 := by omega
      simp only [toggleApply, List.length_cons, hpar]
      rcases Nat.mod_two_eq_zero_or_one rest.length with h2 | h2 <;>
        rw [h2] <;> cases b.isCheckedOut <;> rfl
    · rcases List.eq_nil_or_concat rest with hrest | _
      · subst hrest
        have := hnil rfl
        subst this
        cases hb : b.isCheckedOut <;> simp [toggleApply, hb]
      · refine hpos ?_
        rintro rfl
        simp at hr hco hnil hpos
        rename_i hx
        obtain ⟨l, a, hla⟩ := hx
        exact absurd hla (by simp)

/-- C1 (amended): for every record present with id i, `toggleCheckout(i)` is
an involution on `isCheckedOut` — one application flips only `isCheckedOut`
and `lastCheckedOutDate`, and two applications restore the original
`isCheckedOut` with every field except `lastCheckedOutDate` fixed; and for
every record that starts not checked out with no `lastCheckedOutDate`, after
n successive toggles `lastCheckedOutDate` is present exactly when n is odd.
(As originally stated — for EVERY record in the collection — the parity part
is false: see the counterexample with an initially checked-out record.) -/
theorem C1_toggleCheckout (i : String) (books : List Book) (b : Book)
    (h : findBook i books = some b) :
    (∀ now1, findBook i (toggleCheckoutList now1 i books) = some
      { b with
        isCheckedOut := !b.isCheckedOut
        lastCheckedOutDate := if !b.isCheckedOut then some now1
          else none }) ∧
    (∀ now1 now2, findBook i
        (toggleCheckoutList now2 i (toggleCheckoutList now1 i books)) =
      some { b with
        lastCheckedOutDate := if b.isCheckedOut then some now2
          else none }) ∧
    (b.isCheckedOut = false → b.lastCheckedOutDate = none →
      ∀ nows : List JSDate, ∃ r,
        findBook i (togglesN nows i books) = some r ∧
        r.lastCheckedOutDate.isSome = (nows.length % 2 == 1)) := by
  refine ⟨fun now1 => findBook_toggleCheckoutList i books b now1 h,
    fun now1 now2 => ?_, fun hco hld nows => ?_⟩
  · have h1 := findBook_toggleCheckoutList i books b now1 h
    have h2 := findBook_toggleCheckoutList i (toggleCheckoutList now1 i books)
      (toggleApply now1 b) now2 h1
    rw [h2]
    cases hb : b.isCheckedOut <;> simp [toggleApply, hb]
  · obtain ⟨r, hr, hco2, hnil, hpos⟩ := togglesN_found i nows books b h
    refine ⟨r, hr, ?_⟩
    rcases List.eq_nil_or_concat nows with hn | hn
    · subst hn
      have := hnil rfl
      subst this
      simp [hld]
    · have hne : nows ≠ [] := by
        obtain ⟨l, a, hla⟩ := hn
        subst hla
        simp
      rw [hpos hne, hco2, hco]
      simp

/-- Witness for C1 (amended): a fresh record, toggled zero, one and two
times. -/
theorem C1_witness :
    findBook "1" [sampleBook] = some sampleBook ∧
    sampleBook.isCheckedOut = false ∧ sampleBook.lastCheckedOutDate = none ∧
    findBook "1" (toggleCheckoutList ⟨5⟩ "1" [sampleBook]) = some
      { sampleBook with
        isCheckedOut := !sampleBook.isCheckedOut
        lastCheckedOutDate := if !sampleBook.isCheckedOut then some ⟨5⟩
          else none } ∧
    findBook "1"
        (toggleCheckoutList ⟨9⟩ "1" (toggleCheckoutList ⟨5⟩ "1" [sampleBook])) =
      some { sampleBook with
        lastCheckedOutDate := if sampleBook.isCheckedOut then some ⟨9⟩
          else none } ∧
    ∃ r, findBook "1" (togglesN [⟨5⟩] "1" [sampleBook]) = some r ∧
      r.lastCheckedOutDate.isSome = (([⟨5⟩] : List JSDate).length % 2 == 1) :=
  ⟨by decide, by decide, by decide,
    (C1_toggleCheckout "1" [sampleBook] sampleBook (by decide)).1 ⟨5⟩,
    (C1_toggleCheckout "1" [sampleBook] sampleBook (by decide)).2.1 ⟨5⟩ ⟨9⟩,
    (C1_toggleCheckout "1" [sampleBook] sampleBook (by decide)).2.2
      (by decide) (by decide) [⟨5⟩]⟩

/-- Counterexample to C1 as originally stated: `sampleBookOut` is present
with id "1" and is checked out; after n = 1 toggle (an odd number) its
`lastCheckedOutDate` is absent, not present. -/
theorem C1_counterexample :
    findBook "1" [sampleBookOut] = some sampleBookOut ∧
    1 % 2 = 1 ∧
    (findBook "1" (togglesN [⟨5⟩] "1" [sampleBookOut])).map
      Book.lastCheckedOutDate = some none := by decide

/-! ## Decimal id strings

`addBook` assigns `(books.length + 1).toString()`; in the model this is
`Nat.repr`.  Distinctness of the generated ids rests on `Nat.repr` being
injective, proved here through the decimal valuation of the digit string. -/

/-- Value of a most-significant-first decimal digit string. -/
def digitsVal (l : List Char) : Nat :=
  l.foldl (fun acc c => acc * 10 + (c.toNat - 48)) 0

theorem toDigitsCore_append (fuel : Nat) :
    ∀ (n : Nat) (ds : List Char),
      Nat.toDigitsCore 10 fuel n ds = Nat.toDigitsCore 10 fuel n [] ++ ds := by
  induction fuel with
  | zero => intro n ds; rfl
  | succ g ih =>
    intro n ds
    simp only [Nat.toDigitsCore]
    split
    · simp
    · rw [ih (n / 10) (Nat.digitChar (n % 10) :: ds),
        ih (n / 10) [Nat.digitChar (n % 10)], List.append_assoc]
      rfl

theorem toDigitsCore_fuel (f1 : Nat) :
    ∀ (f2 n : Nat), n < f1 → n < f2 →
      Nat.toDigitsCore 10 f1 n [] = Nat.toDigitsCore 10 f2 n [] := by
  induction f1 with
  | zero => intro f2 n h1 _; omega
  | succ g ih =>
    intro f2 n h1 h2
    cases f2 with
    | zero => omega
    | succ f =>
      simp only [Nat.toDigitsCore]
      split
      · rfl
      · rename_i hn
        rw [toDigitsCore_append g, toDigitsCore_append f,
          ih f (n / 10) (by omega) (by omega)]

theorem digitChar_sub_48 (m : Nat) (h : m < 10) :
    (Nat.digitChar m).toNat - 48 = m := by
  interval_cases m <;> decide

theorem digitsVal_append_singleton (l : List Char) (c : Char) :
    digitsVal (l ++ [c]) = digitsVal l * 10 + (c.toNat - 48) := by
  simp [digitsVal, List.foldl_append]

theorem toDigits_eq_of_lt_10 (n : Nat) (h : n < 10) :
    Nat.toDigits 10 n = [Nat.digitChar n] := by
  rw [Nat.toDigits]
  simp only [Nat.toDigitsCore]
  rw [if_pos (by omega), Nat.mod_eq_of_lt h]

theorem toDigits_eq_append (n : Nat) (h : 10 ≤ n) :
    Nat.toDigits 10 n =
      Nat.toDigits 10 (n / 10) ++ [Nat.digitChar (n % 10)] := by
  rw [Nat.toDigits, Nat.toDigits]
  conv_lhs => rw [Nat.toDigitsCore]
  rw [if_neg (by omega), toDigitsCore_append n (n / 10)]
  congr 1
  exact toDigitsCore_fuel n (n / 10 + 1) (n / 10) (by omega) (by omega)

theorem digitsVal_toDigits (n : Nat) :
    digitsVal (Nat.toDigits 10 n) = n := by
  induction n using Nat.strong_induction_on with
  | _ n ih =>
    by_cases h : n < 10
    · rw [toDigits_eq_of_lt_10 n h]
      simpa [digitsVal] using digitChar_sub_48 n h
    · push_neg at h
      rw [toDigits_eq_append n h, digitsVal_append_singleton,
        ih (n / 10) (by omega), digitChar_sub_48 (n % 10) (by omega)]
      omega

theorem natRepr_injective : Function.Injective Nat.repr := by
  intro a b hab
  have h3 : Nat.toDigits 10 a = Nat.toDigits 10 b :=
    congrArg String.data hab
  have h4 := congrArg digitsVal h3
  rwa [digitsVal_toDigits, digitsVal_toDigits] at h4

/-! ## Id assignment -/

/-- The ids a collection built purely by adds carries: "1", "2", …, "n". -/
def idSeq (n : Nat) : List String :=
  (List.range n).map (fun k => Nat.repr (k + 1))

theorem map_id_mutateFirst (p : Book → Bool) (f : Book → Book)
    (hid : ∀ x, (f x).id = x.id) (l : List Book) :
    (mutateFirst p f l).map Book.id = l.map Book.id := by
  induction l with
  | nil => rfl
  | cons b rest ih =>
    simp only [mutateFirst]
    split <;> simp [hid, ih]

theorem idSeq_succ (n : Nat) :
    idSeq (n + 1) = idSeq n ++ [Nat.repr (n + 1)] := by
  simp [idSeq, List.range_succ]

theorem mem_idSeq (s : String) (n : Nat) (h : s ∈ idSeq n) :
    ∃ k, k < n ∧ s = Nat.repr (k + 1) := by
  rw [idSeq, List.mem_map] at h
  obtain ⟨k, hk, rfl⟩ := h
  exact ⟨k, List.mem_range.mp hk, rfl⟩

/-- A sequence of adds, each with its creation instant, applied to the empty
collection. -/
def addSeq (seq : List (JSDate × AddBookData)) : List Book :=
  seq.foldl (fun bs s => addBookList s.1 s.2 bs) []

theorem map_id_addBookList (books : List Book) (now : JSDate)
    (data : AddBookData) (h : books.map Book.id = idSeq books.length) :
    (addBookList now data books).map Book.id =
      idSeq (addBookList now data books).length := by
  simp only [addBookList, List.map_append, List.length_append, h]
  simp [idSeq_succ, newBook]

theorem addSeq_foldl_ids (seq : List (JSDate × AddBookData)) :
    ∀ books : List Book, books.map Book.id = idSeq books.length →
      (seq.foldl (fun bs s => addBookList s.1 s.2 bs) books).map Book.id =
        idSeq (seq.foldl (fun bs s => addBookList s.1 s.2 bs) books).length := by
  induction seq with
  | nil => intro books h; exact h
  | cons s rest ih =>
    intro books h
    exact ih (addBookList s.1 s.2 books) (map_id_addBookList books s.1 s.2 h)

theorem addSeq_ids (seq : List (JSDate × AddBookData)) :
    (addSeq seq).map Book.id = idSeq (addSeq seq).length :=
  addSeq_foldl_ids seq [] rfl

/-- C2: `add(data)` appends exactly one record, with id
`(count + 1).toString()`, `isCheckedOut = false`, `isActive = true`,
`addedDate` the creation instant, and the seven remaining fields from the
input; and after any sequence of adds from the empty collection, a further
add followed by `getById` of the new id returns exactly that record. -/
theorem C2_addBook :
    (∀ (books : List Book) (now : JSDate) (data : AddBookData),
      addBookList now data books = books ++
        [{ id := Nat.repr (books.length + 1)
           title := data.title
           author := data.author
           isbn := data.isbn
           publishedYear := data.publishedYear
           genre := data.genre
           description := data.description
           condition := data.condition
           isCheckedOut := false
           isActive := true
           lastCheckedOutDate := none
           addedDate := now }]) ∧
    (∀ (seq : List (JSDate × AddBookData)) (now : JSDate)
        (data : AddBookData),
      findBook (Nat.repr ((addSeq seq).length + 1))
          (addBookList now data (addSeq seq)) =
        some (newBook now (addSeq seq).length data)) := by
  constructor
  · intro books now data
    rfl
  · intro seq now data
    have hnone : (addSeq seq).find?
        (fun b => b.id == Nat.repr ((addSeq seq).length + 1)) = none := by
      rw [List.find?_eq_none]
      intro x hx hbe
      have hxid : x.id ∈ (addSeq seq).map Book.id := List.mem_map_of_mem _ hx
      rw [addSeq_ids] at hxid
      obtain ⟨k, hk, hrepr⟩ := mem_idSeq x.id _ hxid
      have : x.id = Nat.repr ((addSeq seq).length + 1) := by simpa using hbe
      rw [hrepr] at this
      have := natRepr_injective this
      omega
    rw [findBook, addBookList, List.find?_append, hnone, Option.none_or]
    rw [List.find?_cons_of_pos _ (by simp [newBook])]

/-- The five mutation operations of the persistence layer, with the instants
at which the mutating calls evaluate `new Date()`. -/
inductive LibOp where
  | add (now : JSDate) (data : AddBookData)
  | update (id : String) (data : AddBookData)
  | toggle (now : JSDate) (id : String)
  | inactive (id : String)
  | setCondition (id : String) (c : BookCondition)

/-- The in-memory collection transform of one operation. -/
def applyOp : LibOp → List Book → List Book
  | LibOp.add now data, books => addBookList now data books
  | LibOp.update i data, books => updateBookList i data books
  | LibOp.toggle now i, books => toggleCheckoutList now i books
  | LibOp.inactive i, books => markInactiveList i books
  | LibOp.setCondition i c, books => updateConditionList c i books

/-- A sequence of operations run from the empty collection. -/
def runOps (ops : List LibOp) : List Book :=
  ops.foldl (fun bs op => applyOp op bs) []

theorem applyOp_ids (op : LibOp) (books : List Book)
    (h : books.map Book.id = idSeq books.length) :
    (applyOp op books).map Book.id = idSeq (applyOp op books).length := by
  cases op with
  | add now data => exact map_id_addBookList books now data h
  | update i data =>
    rw [applyOp, updateBookList_eq_mutateFirst,
      map_id_mutateFirst (fun b => b.id == i) (fun b => applyUpdate b data)
        (fun x => rfl), mutateFirst_length, h]
  | toggle now i =>
    rw [applyOp, toggleCheckoutList,
      map_id_mutateFirst (fun b => b.id == i) (toggleApply now)
        (fun x => rfl), mutateFirst_length, h]
  | inactive i =>
    rw [applyOp, markInactiveList,
      map_id_mutateFirst (fun b => b.id == i)
        (fun b => { b with isActive := false }) (fun x => rfl),
      mutateFirst_length, h]
  | setCondition i c =>
    rw [applyOp, updateConditionList,
      map_id_mutateFirst (fun b => b.id == i)
        (fun b => { b with condition := c }) (fun x => rfl),
      mutateFirst_length, h]

theorem runOps_foldl_ids (ops : List LibOp) :
    ∀ books : List Book, books.map Book.id = idSeq books.length →
      (ops.foldl (fun bs op => applyOp op bs) books).map Book.id =
        idSeq (ops.foldl (fun bs op => applyOp op bs) books).length := by
  induction ops with
  | nil => intro books h; exact h
  | cons op rest ih =>
    intro books h
    exact ih (applyOp op books) (applyOp_ids op books h)

theorem idSeq_pairwise_ne (n : Nat) : (idSeq n).Pairwise (· ≠ ·) := by
  rw [idSeq, List.pairwise_map]
  refine (List.pairwise_lt_range n).imp ?_
  intro a b hab heq
  have := natRepr_injective heq
  omega

/-- C8: starting from the empty collection, every sequence of the five
operations yields a collection whose ids are pairwise distinct (they are
exactly "1" … "n" in order), and no operation ever changes the id of an
existing record (position by position, ids are preserved; an add only
appends). -/
theorem C8_ids_distinct_and_immutable :
    (∀ ops : List LibOp,
      (runOps ops).map Book.id = idSeq (runOps ops).length ∧
      (runOps ops).Pairwise (fun a b => a.id ≠ b.id)) ∧
    (∀ (op : LibOp) (books : List Book) (j : Nat), j < books.length →
      ((applyOp op books)[j]?).map Book.id = (books[j]?).map Book.id) := by
  constructor
  · intro ops
    have hids : (runOps ops).map Book.id = idSeq (runOps ops).length :=
      runOps_foldl_ids ops [] rfl
    refine ⟨hids, ?_⟩
    have hpair := idSeq_pairwise_ne (runOps ops).length
    rw [← hids] at hpair
    exact (List.pairwise_map).mp hpair
  · intro op books j hj
    cases op with
    | add now data =>
      rw [applyOp, addBookList, List.getElem?_append_left hj]
    | update i data =>
      rw [applyOp, updateBookList_eq_mutateFirst]
      exact getElem?_mutateFirst_id (fun b => b.id == i)
        (fun b => applyUpdate b data) (fun x => rfl) books j
    | toggle now i =>
      exact getElem?_mutateFirst_id (fun b => b.id == i)
        (toggleApply now) (fun x => rfl) books j
    | inactive i =>
      exact getElem?_mutateFirst_id (fun b => b.id == i)
        (fun b => { b with isActive := false }) (fun x => rfl) books j
    | setCondition i c =>
      exact getElem?_mutateFirst_id (fun b => b.id == i)
        (fun b => { b with condition := c }) (fun x => rfl) books j

/-- Witness for C8: a concrete three-operation run (add, toggle, add) has
distinct ids "1", "2", and a toggle keyed on "1" never changes ids. -/
theorem C8_witness :
    (runOps [LibOp.add ⟨0⟩ sampleData, LibOp.toggle ⟨3⟩ "1",
        LibOp.add ⟨5⟩ sampleData2]).Pairwise (fun a b => a.id ≠ b.id) ∧
    (0 < ([sampleBook] : List Book).length ∧
      ((applyOp (LibOp.toggle ⟨3⟩ "1") [sampleBook])[0]?).map Book.id =
        (([sampleBook] : List Book)[0]?).map Book.id) :=
  ⟨(C8_ids_distinct_and_immutable.1 _).2,
   ⟨by decide,
    C8_ids_distinct_and_immutable.2 (LibOp.toggle ⟨3⟩ "1") [sampleBook] 0
      (by decide)⟩⟩

end NextCrud
